import Mathlib

/-!
Verification development for the retrieval-augmented case-matching engine
("RAG dataset" component) of this repository.

The engine lives in `app/rag_dataset.py`; `CareGuide/rag_dataset.py` is a
line-for-line copy of the same functions with added docstrings, so a single
embedding covers both.  The embedding below follows the Python source:

  * `loadRows`   embeds `_load_rows` (together with `_ensure_local_csv`:
    the file-or-download step is collapsed into an `Option CsvFile`
    argument, `none` standing for "no local file and the best-effort
    GCS download failed").
  * `buildIndex` embeds `_build_index` (module globals `_Vectorizer`,
    `_MATRIX`, `_ROWS` become the fields of `RagState`).
  * `rag_stats`  embeds `rag_stats`.
  * `rag_search` embeds `rag_search`; the `EVIDENCE` singleton of
    `app/evidence.py` is threaded through as an explicit `EvidenceLog`.

The numeric layer (scikit-learn's `TfidfVectorizer` with
`min_df=1, ngram_range=(1,2)` and `cosine_similarity`) is embedded over `ℝ`
with the library's documented semantics: tokens are maximal runs of word
characters of length at least 2 on the lowercased text, features are
unigrams and bigrams, a document's weight for term `t` is
`count(t) * idf(t)` with the smoothed idf `log((1+n)/(1+df)) + 1`, and
similarities are cosine similarities (with the zero-vector convention
`cos(0, w) = 0`).  `TfidfVectorizer.fit_transform` is partial: it raises
`ValueError` ("empty vocabulary") when no corpus text contains a single
token; `fitTransform`, `buildIndexE`, `rag_statsE` and `rag_searchE`
model this exception path explicitly with `Except`, while `buildIndex`,
`rag_stats` and `rag_search` are the total restrictions to the
non-raising path, used for properties whose domain is a successfully
built corpus (`buildIndexE_ok` and `rag_searchE_agrees` relate the two
layers).  On a raise the interpreter leaves `_ROWS` loaded and an
unfitted `_Vectorizer` with `_MATRIX` unset, so the exception escapes
both public entry points and the next call re-enters the build; that
post-raise global state is not modelled further because no property here
concerns calls made after a raise.  scikit-learn stores the l2-normalised matrix and
`cosine_similarity` normalises again; since normalisation cancels inside a
cosine, the embedding stores the raw tf-idf rows and takes the cosine
directly, which yields the same similarity values.  The `max_features=30000`
vocabulary cap is not modelled (it only acts on corpora with more than
30000 distinct terms); `numpy.argsort` (an unspecified, unstable sort) is
modelled as a stable ascending insertion sort, which is one of its
admissible behaviours.  Python's `round(x, 3)` on binary floats is modelled
as exact decimal rounding `round (1000*x) / 1000`.
-/

namespace RagSpec

noncomputable section

/-! ### Python string and CSV primitives -/

/-- Python `str.strip()` on the ASCII fragment used by the data:
drop surrounding whitespace (structural implementation so that concrete
instances reduce in the kernel). -/
def pyStrip (s : String) : String :=
  String.mk (((s.toList.dropWhile Char.isWhitespace).reverse.dropWhile Char.isWhitespace).reverse)

/-- Python `str.lower()` on the ASCII fragment used by the data. -/
def pyLower (s : String) : String := String.mk (s.toList.map Char.toLower)

/-- A parsed CSV file as `csv.DictReader` sees it: the header row and the
remaining records, each a list of cell strings.  A completely blank line in
the file is the empty record `[]` (which `DictReader` skips). -/
structure CsvFile where
  fieldnames : List String
  records : List (List String)

/-- `dict(zip(fieldnames, cells)).get(col)` with `DictReader`'s padding:
for duplicate column names the last position wins (later `dict` assignments
overwrite earlier ones, and short rows overwrite trailing duplicates with
the `None` restval), and a cell index beyond the record yields `None`. -/
def pyDictGet (fields cells : List String) (col : String) : Option String :=
  match (((List.range fields.length).filter (fun i => fields.getD i "" == col)).getLast?) with
  | none => none
  | some j => cells.get? j

/-- `next((c for c in fieldnames if c.lower() in aliases), default)` -/
def resolveCol (fields : List String) (aliases : List String) (dflt : String) : String :=
  (fields.find? (fun c => aliases.contains (pyLower c))).getD dflt

/-- Like `resolveCol` but with `None` as the default (the url column). -/
def resolveColOpt (fields : List String) (aliases : List String) : Option String :=
  fields.find? (fun c => aliases.contains (pyLower c))

/-- One knowledge-base row (`KBRow` in the source). -/
structure KBRow where
  condition : String
  symptoms : String
  advice : String
  url : Option String
deriving DecidableEq

instance : Inhabited KBRow := ⟨⟨"", "", "", none⟩⟩

/-- The row built from one CSV record, given the resolved columns:
`KBRow(condition=(r.get(cond_col) or "").strip(), ..., url=(r.get(url_col) or None) if url_col else None)`.
Note the source strips the three text fields but not the url. -/
def parseRecord (fields : List String) (cells : List String) : KBRow :=
  { condition := pyStrip ((pyDictGet fields cells (resolveCol fields ["condition", "disease", "name"] "condition")).getD "")
    symptoms := pyStrip ((pyDictGet fields cells (resolveCol fields ["symptoms", "symptom", "features"] "symptoms")).getD "")
    advice := pyStrip ((pyDictGet fields cells (resolveCol fields ["advice", "self_care", "recommendations"] "advice")).getD "")
    url := match resolveColOpt fields ["url", "link", "source"] with
      | none => none
      | some uc => match pyDictGet fields cells uc with
        | none => none
        | some s => if s = "" then none else some s }

/-- `_load_rows` (with `_ensure_local_csv` collapsed into the `Option`):
an unavailable file gives `[]`; otherwise every record of the reader is
appended.  `DictReader` skips blank lines (empty records); no other record
is ever dropped. -/
def loadRows (src : Option CsvFile) : List KBRow :=
  match src with
  | none => []
  | some f => ((f.records.filter (fun cells => !cells.isEmpty)).map (parseRecord f.fieldnames))

/-! ### Tokenizer and tf-idf weighting (scikit-learn defaults) -/

/-- Python regex `\w` on the ASCII fragment used by the data. -/
def isWordChar (c : Char) : Bool := c.isAlphanum || c == '_'

/-- Maximal runs of word characters, accumulator style. -/
def wordRuns : List Char → List Char → List (List Char)
  | [], acc => if acc.isEmpty then [] else [acc.reverse]
  | c :: rest, acc =>
    if isWordChar c then wordRuns rest (c :: acc)
    else if acc.isEmpty then wordRuns rest [] else acc.reverse :: wordRuns rest []

/-- `token_pattern=r"(?u)\b\w\w+\b"` on the lowercased text: maximal
word-character runs of length at least 2. -/
def pyTokens (s : String) : List String :=
  ((wordRuns (pyLower s).toList []).filter (fun r => 2 ≤ r.length)).map (fun r => String.mk r)

/-- `ngram_range=(1,2)`: unigrams followed by space-joined bigrams. -/
def termsOf (s : String) : List String :=
  pyTokens s ++ List.zipWith (fun a b => a ++ " " ++ b) (pyTokens s) (pyTokens s).tail

/-- `f"{r.condition} | {r.symptoms} | {r.advice}"` -/
def rowText (r : KBRow) : String :=
  r.condition ++ " | " ++ r.symptoms ++ " | " ++ r.advice

/-- The fitted vocabulary: every term of the corpus, once. -/
def vocabOf (texts : List String) : List String :=
  (texts.flatMap termsOf).dedup

/-- Document frequency of a term in the fitted corpus. -/
def dfOf (texts : List String) (t : String) : ℕ :=
  (texts.filter (fun τ => termsOf τ |>.contains t)).length

/-- Smoothed idf (`smooth_idf=True`): `ln((1+n)/(1+df)) + 1`. -/
def sklearnIdf (n df : ℕ) : ℝ :=
  Real.log ((1 + (n : ℝ)) / (1 + (df : ℝ))) + 1

/-- The (unnormalised) tf-idf vector of a text against a fitted corpus:
term count times idf.  `TfidfVectorizer.transform` uses exactly the fitted
vocabulary and idf, so the same function serves for matrix rows and for
queries. -/
def tfidfVec (texts : List String) (s : String) : String → ℝ :=
  fun t => ((termsOf s).count t : ℝ) * sklearnIdf texts.length (dfOf texts t)

/-- Inner product of two term-weight vectors over a vocabulary list. -/
def listDot (V : List String) (v w : String → ℝ) : ℝ :=
  (V.map (fun t => v t * w t)).sum

/-- Cosine similarity with scikit-learn's zero-vector convention
(`normalize` leaves all-zero rows as zeros, so their similarity is 0). -/
def cosSim (V : List String) (v w : String → ℝ) : ℝ :=
  if listDot V v v = 0 ∨ listDot V w w = 0 then 0
  else listDot V v w / (Real.sqrt (listDot V v v) * Real.sqrt (listDot V w w))

/-- `round(float(x), 3)`: exact decimal rounding to 3 places. -/
def round3 (x : ℝ) : ℝ := ((round (1000 * x) : ℤ) : ℝ) / 1000

/-! ### The evidence log (`app/evidence.py`) -/

/-- One breadcrumb; `rag_search` never passes `**extra`, so the extras dict
is always empty and is omitted. -/
structure EvidenceItem where
  source : String
  detail : String
deriving DecidableEq

/-- The `_items` list of the `EVIDENCE` singleton, threaded explicitly. -/
abbrev EvidenceLog := List EvidenceItem

/-- `EvidenceLog.add`: append one item. -/
def EvidenceLog.add (log : EvidenceLog) (src detail : String) : EvidenceLog :=
  log ++ [⟨src, detail⟩]

/-! ### Engine state and lifecycle (`_build_index`, `rag_stats`, `rag_search`) -/

/-- The module globals `_Vectorizer`, `_MATRIX`, `_ROWS`.  The fitted
vectorizer is determined by the list of corpus texts it was fitted on, so
that list stands for it; the matrix is the list of document tf-idf
vectors. -/
structure RagState where
  vectorizer : Option (List String)
  matrix : Option (List (String → ℝ))
  rows : List KBRow

/-- The state at interpreter start: `_Vectorizer = None`, `_MATRIX = None`,
`_ROWS = []`. -/
def initState : RagState := ⟨none, none, []⟩

/-- `_build_index()`: no-op when vectorizer and matrix are set and rows are
non-empty; otherwise reload rows (leaving the other globals alone when the
load is empty) and fit the tf-idf matrix over the concatenated row texts. -/
def buildIndex (src : Option CsvFile) (st : RagState) : RagState :=
  if st.vectorizer.isSome && st.matrix.isSome && !st.rows.isEmpty then st
  else
    let rows := loadRows src
    if rows.isEmpty then { st with rows := rows }
    else
      let texts := rows.map rowText
      { vectorizer := some texts, matrix := some (texts.map (tfidfVec texts)), rows := rows }

structure RagStats where
  rows : ℕ
  indexed : ℕ
deriving DecidableEq

/-- `rag_stats()`: build, then report row count and matrix row count. -/
def rag_stats (src : Option CsvFile) (st : RagState) : RagState × RagStats :=
  let st' := buildIndex src st
  (st', ⟨st'.rows.length, match st'.matrix with | some M => M.length | none => 0⟩)

/-- One search hit as `rag_search` formats it. -/
structure SearchResult where
  condition : String
  symptoms : String
  advice : String
  url : Option String
  score : ℝ

/-- The similarity row `cosine_similarity(vec, _MATRIX)[0]`:
one cosine per indexed document. -/
def simsOf (texts : List String) (M : List (String → ℝ)) (query : String) : List ℝ :=
  M.map (cosSim (vocabOf texts) (tfidfVec texts query))

/-- `sims.argsort()` modelled as a stable ascending sort of the index
range (numpy's unstable default sort realises one such permutation). -/
def argsortAsc (sims : List ℝ) : List ℕ :=
  List.insertionSort (fun i j => sims.getD i 0 ≤ sims.getD j 0) (List.range sims.length)

/-- Python `a[start:]` for an integer `start`: negative values count from
the end (clamped at 0), non-negative values from the front. -/
def pySliceFrom (l : List ℕ) (start : ℤ) : List ℕ :=
  if start < 0 then l.drop (l.length - (-start).toNat) else l.drop start.toNat

/-- `sims.argsort()[-top_k:][::-1]` -/
def ragTopIdx (sims : List ℝ) (topK : ℤ) : List ℕ :=
  (pySliceFrom (argsortAsc sims) (-topK)).reverse

/-- The dict built for index `i`: `_ROWS[i]` plus the rounded score. -/
def resultOf (rows : List KBRow) (sims : List ℝ) (i : ℕ) : SearchResult :=
  { condition := (rows.getD i default).condition
    symptoms := (rows.getD i default).symptoms
    advice := (rows.getD i default).advice
    url := (rows.getD i default).url
    score := round3 (sims.getD i 0) }

/-- `rag_search(query, top_k)`: build, bail out empty when the index is
absent, otherwise vectorize the query, rank all rows by cosine similarity,
slice the top-k, and append one evidence breadcrumb. -/
def rag_search (src : Option CsvFile) (st : RagState) (ev : EvidenceLog)
    (query : String) (topK : ℤ) : RagState × EvidenceLog × List SearchResult :=
  let st' := buildIndex src st
  if st'.rows.isEmpty || st'.vectorizer.isNone || st'.matrix.isNone then (st', ev, [])
  else
    let texts := st'.vectorizer.getD []
    let M := st'.matrix.getD []
    let sims := simsOf texts M query
    let out := (ragTopIdx sims topK).map (resultOf st'.rows sims)
    let k := out.length
    (st', ev.add "dataset" (toString k ++ " similar cases"), out)

/-! ### The exception path of the vectorizer -/

/-- scikit-learn's message for a vocabulary that ends up empty. -/
def emptyVocabMsg : String := "empty vocabulary; perhaps the documents only contain stop words"

/-- `TfidfVectorizer(min_df=1, max_features=30000, ngram_range=(1,2)).fit_transform(texts)`:
raises `ValueError` when no document contributes a token (the fitted
vocabulary would be empty), otherwise yields the tf-idf rows. -/
def fitTransform (texts : List String) : Except String (List (String → ℝ)) :=
  if (vocabOf texts).isEmpty then Except.error emptyVocabMsg
  else Except.ok (texts.map (tfidfVec texts))

/-- `_build_index` with the exception made explicit: identical to
`buildIndex` except that the `fit_transform` call can fail, in which case
the `ValueError` propagates to the caller. -/
def buildIndexE (src : Option CsvFile) (st : RagState) : Except String RagState :=
  if st.vectorizer.isSome && st.matrix.isSome && !st.rows.isEmpty then Except.ok st
  else
    let rows := loadRows src
    if rows.isEmpty then Except.ok { st with rows := rows }
    else
      let texts := rows.map rowText
      match fitTransform texts with
      | Except.error e => Except.error e
      | Except.ok M => Except.ok { vectorizer := some texts, matrix := some M, rows := rows }

/-- `rag_stats` with the build exception propagating. -/
def rag_statsE (src : Option CsvFile) (st : RagState) :
    Except String (RagState × RagStats) :=
  match buildIndexE src st with
  | Except.error e => Except.error e
  | Except.ok st' =>
    Except.ok (st', ⟨st'.rows.length, match st'.matrix with | some M => M.length | none => 0⟩)

/-- `rag_search` with the build exception propagating. -/
def rag_searchE (src : Option CsvFile) (st : RagState) (ev : EvidenceLog)
    (query : String) (topK : ℤ) :
    Except String (RagState × EvidenceLog × List SearchResult) :=
  match buildIndexE src st with
  | Except.error e => Except.error e
  | Except.ok st' =>
    if st'.rows.isEmpty || st'.vectorizer.isNone || st'.matrix.isNone then Except.ok (st', ev, [])
    else
      let texts := st'.vectorizer.getD []
      let M := st'.matrix.getD []
      let sims := simsOf texts M query
      let out := (ragTopIdx sims topK).map (resultOf st'.rows sims)
      let k := out.length
      Except.ok (st', ev.add "dataset" (toString k ++ " similar cases"), out)

/-- States the process can actually be in: the initial state, and anything
`_build_index` (the only writer of the globals, called by both `rag_stats`
and `rag_search`) produces from one. -/
inductive Reachable : RagState → Prop where
  | start : Reachable initState
  | build (src : Option CsvFile) (st : RagState) : Reachable st → Reachable (buildIndex src st)

/-! ### The state invariant -/

/-- Either nothing has been built (all three globals at their initial
values, possibly after an empty reload), or a successful build happened:
the vectorizer was fitted on exactly the concatenated texts of the loaded
rows and the matrix holds their tf-idf vectors. -/
def StateOK (st : RagState) : Prop :=
  (st.vectorizer = none ∧ st.matrix = none ∧ st.rows = []) ∨
  (∃ texts, st.vectorizer = some texts ∧ st.matrix = some (texts.map (tfidfVec texts)) ∧
    texts = st.rows.map rowText ∧ st.rows ≠ [])

theorem stateOK_build (src : Option CsvFile) (st : RagState) (h : StateOK st) :
    StateOK (buildIndex src st) := by
  unfold buildIndex
  split
  · exact h
  · rename_i hguard
    rcases h with ⟨hv, hm, hr⟩ | ⟨texts, hv, hm, ht, hr⟩
    · by_cases hemp : (loadRows src).isEmpty
      · rw [if_pos hemp]
        exact Or.inl ⟨hv, hm, by simpa [List.isEmpty_iff] using hemp⟩
      · rw [if_neg hemp]
        exact Or.inr ⟨(loadRows src).map rowText, rfl, rfl, rfl,
          by simpa [List.isEmpty_iff] using hemp⟩
    · exact absurd (by simp [hv, hm, List.isEmpty_iff, hr]) hguard

theorem reachable_ok {st : RagState} (h : Reachable st) : StateOK st := by
  induction h with
  | start => exact Or.inl ⟨rfl, rfl, rfl⟩
  | build src st _ ih => exact stateOK_build src st ih

/-- In a sound state with loaded rows, the index exists and matches them. -/
theorem built_of_rows_ne {st : RagState} (h : StateOK st) (hr : st.rows ≠ []) :
    st.vectorizer = some (st.rows.map rowText) ∧
    st.matrix = some ((st.rows.map rowText).map (tfidfVec (st.rows.map rowText))) := by
  rcases h with ⟨_, _, hrows⟩ | ⟨texts, hv, hm, ht, _⟩
  · exact absurd hrows hr
  · subst ht; exact ⟨hv, hm⟩

/-- Once a successful build happened, `_build_index` is a no-op for every
later state of the backing file. -/
theorem buildIndex_noop {st : RagState} (h : StateOK st) (hv : st.vectorizer ≠ none)
    (src : Option CsvFile) : buildIndex src st = st := by
  rcases h with ⟨hv0, _, _⟩ | ⟨texts, hv0, hm0, ht, hr⟩
  · exact absurd hv0 hv
  · unfold buildIndex
    rw [if_pos (by simp [hv0, hm0, List.isEmpty_iff, hr])]

/-- On the non-raising path the total `buildIndex` computes exactly what
`buildIndexE` returns. -/
theorem buildIndexE_ok {src : Option CsvFile} {st st' : RagState}
    (h : buildIndexE src st = Except.ok st') : buildIndex src st = st' := by
  unfold buildIndexE at h
  unfold buildIndex
  split at h
  · rename_i hg
    rw [if_pos hg]
    exact (Except.ok.injEq _ _).mp h
  · rename_i hg
    rw [if_neg hg]
    dsimp only at h ⊢
    split at h
    · rename_i hemp
      rw [if_pos hemp]
      exact (Except.ok.injEq _ _).mp h
    · rename_i hemp
      rw [if_neg hemp]
      split at h
      · cases h
      · rename_i M hM
        unfold fitTransform at hM
        split at hM
        · cases hM
        · have hMe := (Except.ok.injEq _ _).mp hM
          subst hMe
          exact (Except.ok.injEq _ _).mp h

/-- When the build does not raise, the effectful search agrees with the
total one. -/
theorem rag_searchE_agrees (src : Option CsvFile) (st : RagState) (ev : EvidenceLog)
    (q : String) (k : ℤ) (h : buildIndexE src st = Except.ok (buildIndex src st)) :
    rag_searchE src st ev q k = Except.ok (rag_search src st ev q k) := by
  unfold rag_searchE rag_search
  rw [h]
  dsimp only
  split <;> rfl

/-! ### Ranking pipeline lemmas -/

theorem argsortAsc_perm (sims : List ℝ) :
    List.Perm (argsortAsc sims) (List.range sims.length) :=
  List.perm_insertionSort _ _

theorem argsortAsc_length (sims : List ℝ) : (argsortAsc sims).length = sims.length := by
  simpa using (argsortAsc_perm sims).length_eq

theorem argsortAsc_sorted (sims : List ℝ) :
    (argsortAsc sims).Sorted (fun i j => sims.getD i 0 ≤ sims.getD j 0) := by
  haveI : IsTotal ℕ (fun i j => sims.getD i 0 ≤ sims.getD j 0) := ⟨fun _ _ => le_total _ _⟩
  haveI : IsTrans ℕ (fun i j => sims.getD i 0 ≤ sims.getD j 0) := ⟨fun _ _ _ => le_trans⟩
  exact List.sorted_insertionSort _ _

theorem argsortAsc_nodup (sims : List ℝ) : (argsortAsc sims).Nodup :=
  ((argsortAsc_perm sims).nodup_iff).mpr (List.nodup_range _)

theorem argsortAsc_mem {sims : List ℝ} {i : ℕ} (h : i ∈ argsortAsc sims) : i < sims.length := by
  have := ((argsortAsc_perm sims).mem_iff).mp h
  simpa [List.mem_range] using this

theorem ragTopIdx_eq {k : ℤ} (sims : List ℝ) (hk : 1 ≤ k) :
    ragTopIdx sims k
      = ((argsortAsc sims).drop ((argsortAsc sims).length - k.toNat)).reverse := by
  unfold ragTopIdx pySliceFrom
  rw [if_pos (by omega : -k < 0)]
  simp

theorem ragTopIdx_length {k : ℤ} (sims : List ℝ) (hk : 1 ≤ k) :
    (ragTopIdx sims k).length = min k.toNat sims.length := by
  rw [ragTopIdx_eq sims hk]
  simp only [List.length_reverse, List.length_drop, argsortAsc_length]
  omega

theorem ragTopIdx_nodup (sims : List ℝ) (k : ℤ) : (ragTopIdx sims k).Nodup := by
  unfold ragTopIdx pySliceFrom
  have h : ∀ m, ((argsortAsc sims).drop m).Nodup :=
    fun m => (argsortAsc_nodup sims).sublist (List.drop_sublist m _)
  split <;> exact List.nodup_reverse.mpr (h _)

theorem ragTopIdx_mem {sims : List ℝ} {k : ℤ} {i : ℕ} (h : i ∈ ragTopIdx sims k) :
    i < sims.length := by
  unfold ragTopIdx pySliceFrom at h
  rw [List.mem_reverse] at h
  split at h <;> exact argsortAsc_mem (List.mem_of_mem_drop h)

theorem ragTopIdx_pairwise (sims : List ℝ) (k : ℤ) :
    (ragTopIdx sims k).Pairwise (fun i j => sims.getD j 0 ≤ sims.getD i 0) := by
  unfold ragTopIdx pySliceFrom
  have h : ∀ m, ((argsortAsc sims).drop m).Pairwise (fun i j => sims.getD i 0 ≤ sims.getD j 0) :=
    fun m => (argsortAsc_sorted sims).sublist (List.drop_sublist m _)
  split <;> exact List.pairwise_reverse.mpr (h _)

/-- In a list sorted by a reflexive relation, every element is related to
the last one. -/
theorem sorted_rel_getLast {α : Type} {r : α → α → Prop} (hrefl : ∀ a, r a a) :
    ∀ {l : List α}, l.Sorted r → ∀ {x}, x ∈ l → ∀ (hne : l ≠ []), r x (l.getLast hne)
  | [], _, _, hx, _ => absurd hx (List.not_mem_nil _)
  | [a], _, x, hx, _ => by
      simp only [List.mem_singleton] at hx
      subst hx
      exact hrefl _
  | a :: b :: t, h, x, hx, _ => by
      rw [List.getLast_cons (List.cons_ne_nil b t)]
      rcases List.mem_cons.mp hx with rfl | hx2
      · exact (List.pairwise_cons.mp h).1 _ (List.getLast_mem _)
      · exact sorted_rel_getLast hrefl (List.Pairwise.of_cons h) hx2 (List.cons_ne_nil b t)

/-- The first returned index carries a maximal similarity. -/
theorem ragTopIdx_head {sims : List ℝ} {k : ℤ} (hk : 1 ≤ k) (hne : sims ≠ []) :
    ∃ i0, (ragTopIdx sims k).head? = some i0 ∧ i0 < sims.length ∧
      ∀ j < sims.length, sims.getD j 0 ≤ sims.getD i0 0 := by
  have hlen : (argsortAsc sims).length = sims.length := argsortAsc_length sims
  have hl : argsortAsc sims ≠ [] := by
    intro hltop
    exact hne (List.length_eq_zero.mp (by rw [← hlen, hltop]; rfl))
  refine ⟨(argsortAsc sims).getLast hl, ?_, ?_, ?_⟩
  · rw [ragTopIdx_eq sims hk, List.head?_reverse]
    have hm : (argsortAsc sims).length - k.toNat < (argsortAsc sims).length := by
      have : sims.length ≠ 0 := fun h0 => hne (List.length_eq_zero.mp h0)
      omega
    have hdrop : (argsortAsc sims).drop ((argsortAsc sims).length - k.toNat) ≠ [] := by
      intro h0
      have := congrArg List.length h0
      simp only [List.length_drop, List.length_nil] at this
      omega
    calc ((argsortAsc sims).drop ((argsortAsc sims).length - k.toNat)).getLast?
        = ((argsortAsc sims).take ((argsortAsc sims).length - k.toNat) ++
            (argsortAsc sims).drop ((argsortAsc sims).length - k.toNat)).getLast? :=
          (List.getLast?_append_of_ne_nil _ hdrop).symm
      _ = (argsortAsc sims).getLast? := by rw [List.take_append_drop]
      _ = some ((argsortAsc sims).getLast hl) := List.getLast?_eq_getLast _ hl
  · exact argsortAsc_mem (List.getLast_mem hl)
  · intro j hj
    have hjmem : j ∈ argsortAsc sims :=
      ((argsortAsc_perm sims).mem_iff).mpr (List.mem_range.mpr hj)
    exact sorted_rel_getLast (r := fun i j => sims.getD i 0 ≤ sims.getD j 0)
      (fun a => le_refl _) (argsortAsc_sorted sims) hjmem hl

/-- `getD` through a `map`, below the length. -/
theorem getD_map_of_lt {α β : Type} (l : List α) (f : α → β) (d : α) (b : β) {i : ℕ}
    (hi : i < l.length) : (l.map f).getD i b = f (l.getD i d) := by
  simp [List.getD_eq_getElem?_getD, List.getElem?_map, List.getElem?_eq_getElem hi]

/-! ### Cosine similarity bounds -/

theorem listDot_self_nonneg (V : List String) (v : String → ℝ) : 0 ≤ listDot V v v := by
  apply List.sum_nonneg
  intro x hx
  obtain ⟨t, _, rfl⟩ := List.mem_map.mp hx
  exact mul_self_nonneg _

theorem listDot_nonneg {V : List String} {v w : String → ℝ}
    (hv : ∀ t, 0 ≤ v t) (hw : ∀ t, 0 ≤ w t) : 0 ≤ listDot V v w := by
  apply List.sum_nonneg
  intro x hx
  obtain ⟨t, _, rfl⟩ := List.mem_map.mp hx
  exact mul_nonneg (hv t) (hw t)

/-- Cauchy–Schwarz for `listDot` over a duplicate-free vocabulary. -/
theorem listDot_sq_le {V : List String} (hV : V.Nodup) (v w : String → ℝ) :
    (listDot V v w) ^ 2 ≤ listDot V v v * listDot V w w := by
  have hvw : listDot V v w = ∑ t ∈ V.toFinset, v t * w t :=
    (List.sum_toFinset _ hV).symm
  have hvv : listDot V v v = ∑ t ∈ V.toFinset, v t ^ 2 := by
    rw [show (∑ t ∈ V.toFinset, v t ^ 2) = ∑ t ∈ V.toFinset, v t * v t from
      Finset.sum_congr rfl (fun t _ => sq (v t))]
    exact (List.sum_toFinset _ hV).symm
  have hww : listDot V w w = ∑ t ∈ V.toFinset, w t ^ 2 := by
    rw [show (∑ t ∈ V.toFinset, w t ^ 2) = ∑ t ∈ V.toFinset, w t * w t from
      Finset.sum_congr rfl (fun t _ => sq (w t))]
    exact (List.sum_toFinset _ hV).symm
  rw [hvw, hvv, hww]
  exact Finset.sum_mul_sq_le_sq_mul_sq _ _ _

theorem cosSim_nonneg {V : List String} {v w : String → ℝ}
    (hv : ∀ t, 0 ≤ v t) (hw : ∀ t, 0 ≤ w t) : 0 ≤ cosSim V v w := by
  unfold cosSim
  split
  · exact le_refl 0
  · exact div_nonneg (listDot_nonneg hv hw)
      (mul_nonneg (Real.sqrt_nonneg _) (Real.sqrt_nonneg _))

theorem cosSim_le_one {V : List String} (hV : V.Nodup) {v w : String → ℝ}
    (hv : ∀ t, 0 ≤ v t) (hw : ∀ t, 0 ≤ w t) : cosSim V v w ≤ 1 := by
  unfold cosSim
  split
  · exact zero_le_one
  · rename_i hz
    push_neg at hz
    have hvv : 0 < listDot V v v := lt_of_le_of_ne (listDot_self_nonneg V v) (Ne.symm hz.1)
    have hww : 0 < listDot V w w := lt_of_le_of_ne (listDot_self_nonneg V w) (Ne.symm hz.2)
    rw [div_le_one (mul_pos (Real.sqrt_pos.mpr hvv) (Real.sqrt_pos.mpr hww))]
    have hnum : 0 ≤ listDot V v w := listDot_nonneg hv hw
    calc listDot V v w = Real.sqrt ((listDot V v w) ^ 2) := (Real.sqrt_sq hnum).symm
      _ ≤ Real.sqrt (listDot V v v * listDot V w w) :=
          Real.sqrt_le_sqrt (listDot_sq_le hV v w)
      _ = Real.sqrt (listDot V v v) * Real.sqrt (listDot V w w) :=
          Real.sqrt_mul (le_of_lt hvv) _

theorem cosSim_self {V : List String} {v : String → ℝ} (h : listDot V v v ≠ 0) :
    cosSim V v v = 1 := by
  unfold cosSim
  rw [if_neg (by tauto), Real.mul_self_sqrt (listDot_self_nonneg V v)]
  exact div_self h

/-- Every tf-idf weight is nonnegative: counts are nonnegative and the
smoothed idf is at least 1 because `df ≤ n`. -/
theorem tfidfVec_nonneg (texts : List String) (s : String) (t : String) :
    0 ≤ tfidfVec texts s t := by
  unfold tfidfVec sklearnIdf
  apply mul_nonneg (Nat.cast_nonneg _)
  have hdf : (dfOf texts t : ℝ) ≤ texts.length := by
    exact_mod_cast List.length_filter_le _ _
  have h1 : (1 : ℝ) ≤ (1 + (texts.length : ℝ)) / (1 + (dfOf texts t : ℝ)) := by
    rw [le_div_iff₀ (by positivity)]
    linarith
  have := Real.log_nonneg h1
  linarith

/-! ### Decimal rounding -/

theorem round3_mono {x y : ℝ} (h : x ≤ y) : round3 x ≤ round3 y := by
  unfold round3
  have hr : round (1000 * x) ≤ round (1000 * y) := by
    rw [round_eq, round_eq]
    exact Int.floor_mono (by linarith)
  have : ((round (1000 * x) : ℤ) : ℝ) ≤ ((round (1000 * y) : ℤ) : ℝ) := by exact_mod_cast hr
  gcongr

theorem round3_zero : round3 0 = 0 := by
  simp [round3]

theorem round3_nonneg {x : ℝ} (h : 0 ≤ x) : 0 ≤ round3 x := by
  have := round3_mono h
  rwa [round3_zero] at this

theorem round3_le_one {x : ℝ} (h : x ≤ 1) : round3 x ≤ 1 := by
  have hr : round (1000 * x) ≤ round ((1000 : ℝ)) := by
    rw [round_eq, round_eq]
    exact Int.floor_mono (by linarith)
  have h2 : round ((1000 : ℝ)) = 1000 := by exact_mod_cast round_intCast (α := ℝ) 1000
  unfold round3
  rw [div_le_one (by norm_num)]
  exact_mod_cast hr.trans (le_of_eq h2)

theorem round3_one : round3 (1 : ℝ) = 1 := by
  unfold round3
  rw [mul_one, show round ((1000 : ℝ)) = 1000 from by exact_mod_cast round_intCast (α := ℝ) 1000]
  norm_num

/-! ### Abbreviations for the built index of a state -/

/-- The texts the vectorizer of a built state was fitted on. -/
def corpusTexts (st : RagState) : List String := st.rows.map rowText

/-- The tf-idf matrix of a built state. -/
def corpusMatrix (st : RagState) : List (String → ℝ) :=
  (corpusTexts st).map (tfidfVec (corpusTexts st))

/-- The similarity row a query produces against a built state. -/
def searchSims (st : RagState) (q : String) : List ℝ :=
  simsOf (corpusTexts st) (corpusMatrix st) q

theorem searchSims_length (st : RagState) (q : String) :
    (searchSims st q).length = st.rows.length := by
  simp [searchSims, simsOf, corpusMatrix, corpusTexts]

/-- What `rag_search` computes once the state is sound and non-degenerate:
the top-k slice of the similarity ranking plus one breadcrumb. -/
theorem rag_search_built (src : Option CsvFile) (st : RagState) (ev : EvidenceLog)
    (q : String) (k : ℤ)
    (hok : StateOK (buildIndex src st)) (hne : (buildIndex src st).rows ≠ []) :
    rag_search src st ev q k =
      (buildIndex src st,
       ev.add "dataset"
         (toString ((ragTopIdx (searchSims (buildIndex src st) q) k).map
             (resultOf (buildIndex src st).rows (searchSims (buildIndex src st) q))).length
           ++ " similar cases"),
       (ragTopIdx (searchSims (buildIndex src st) q) k).map
         (resultOf (buildIndex src st).rows (searchSims (buildIndex src st) q))) := by
  obtain ⟨hv, hm⟩ := built_of_rows_ne hok hne
  unfold rag_search
  rw [if_neg (by simp [hv, hm, List.isEmpty_iff, hne])]
  simp [hv, hm, searchSims, corpusMatrix, corpusTexts]

/-! ### Sample corpora for concrete evaluations -/

def csvA : CsvFile :=
  ⟨["condition", "symptoms", "advice"], [["flu", "fever cough", "rest fluids"]]⟩

def csvEmpty : CsvFile := ⟨["condition", "symptoms", "advice"], []⟩

def csvBlankRow : CsvFile := ⟨["condition", "symptoms", "advice"], [["", "", ""]]⟩

def csvUrl : CsvFile := ⟨["condition", "symptoms", "advice", "url"], [["c", "s", "a", " u "]]⟩

def csvDup : CsvFile :=
  ⟨["condition", "symptoms", "advice", "url"], [["ab", "", "", "a"], ["ab", "", "", ""]]⟩

/-! ### Claims -/

/-- C1: for every built, non-empty corpus of `n` rows and every `top_k ≥ 1`,
`rag_search` returns exactly `min top_k n` results, ordered by score
descending (non-increasing rounded scores): exactly `top_k` results when
`top_k ≤ n` and all `n` rows sorted by score when `top_k ≥ n`. -/
theorem rag_search_count_and_order
    (src : Option CsvFile) (st : RagState) (ev : EvidenceLog) (q : String) (k : ℤ)
    (hst : Reachable st) (hk : 1 ≤ k) (hne : (buildIndex src st).rows ≠ []) :
    ((rag_search src st ev q k).2.2).length = min k.toNat (buildIndex src st).rows.length ∧
    (((rag_search src st ev q k).2.2).map SearchResult.score).Pairwise (fun a b => b ≤ a) := by
  have hok : StateOK (buildIndex src st) := reachable_ok (Reachable.build src st hst)
  rw [rag_search_built src st ev q k hok hne]
  constructor
  · simp only [List.length_map]
    rw [ragTopIdx_length _ hk, searchSims_length]
  · rw [List.map_map]
    apply List.Pairwise.map (R := fun i j =>
      (searchSims (buildIndex src st) q).getD j 0 ≤ (searchSims (buildIndex src st) q).getD i 0)
    · intro a b hab
      exact round3_mono hab
    · exact ragTopIdx_pairwise _ k

/-- Witness for C1 at a concrete corpus of one row and `top_k = 1`. -/
theorem rag_search_count_and_order_witness :
    Reachable initState ∧ (1 : ℤ) ≤ 1 ∧ (buildIndex (some csvA) initState).rows ≠ [] ∧
    (((rag_search (some csvA) initState [] "fever" 1).2.2).length
        = min (1 : ℤ).toNat (buildIndex (some csvA) initState).rows.length ∧
      (((rag_search (some csvA) initState [] "fever" 1).2.2).map SearchResult.score).Pairwise
        (fun a b => b ≤ a)) :=
  ⟨Reachable.start, le_refl 1, by decide,
    rag_search_count_and_order (some csvA) initState [] "fever" 1 Reachable.start
      (le_refl 1) (by decide)⟩

/-- `top_k = 0` slices the whole argsort (`a[-0:]` is `a[0:]`). -/
theorem ragTopIdx_zero (sims : List ℝ) : ragTopIdx sims 0 = (argsortAsc sims).reverse := by
  unfold ragTopIdx pySliceFrom
  norm_num

/-- C2 (behaviour at the failing input): with `top_k = 0` the call neither
raises nor returns no results — it silently returns every corpus row,
because `sims.argsort()[-0:]` is the whole array.  Here the one-row corpus
comes back in full. -/
theorem rag_search_topk_zero_returns_rows :
    ((rag_search (some csvA) initState [] "anything" 0).2.2).length
        = (buildIndex (some csvA) initState).rows.length ∧
    (buildIndex (some csvA) initState).rows.length = 1 := by
  have hok : StateOK (buildIndex (some csvA) initState) :=
    reachable_ok (Reachable.build _ _ Reachable.start)
  constructor
  · rw [rag_search_built _ _ _ _ _ hok (by decide)]
    simp only [List.length_map, ragTopIdx_zero, List.length_reverse, argsortAsc_length]
    rw [searchSims_length]
  · decide

/-- C3 (counterexample): a record whose cells are all empty strings is not
a blank line, so `DictReader` yields it and the loader keeps it — the
loaded sequence contains a row with all three text fields blank. -/
theorem loader_keeps_all_blank_record :
    loadRows (some csvBlankRow)
      = [{ condition := "", symptoms := "", advice := "", url := none }] := by
  decide

/-- C3 (amended): the CSV reader does skip entirely blank lines (empty
records), but the loader performs no field-content filtering: it keeps one
row per non-blank record, including records whose parsed text fields are
all blank. -/
theorem loader_blank_line_vs_blank_fields :
    (∀ (fields : List String) (rs1 rs2 : List (List String)),
        loadRows (some ⟨fields, rs1 ++ ([] : List String) :: rs2⟩)
          = loadRows (some ⟨fields, rs1 ++ rs2⟩)) ∧
    (∀ (fields : List String) (rs : List (List String)),
        (loadRows (some ⟨fields, rs⟩)).length
          = (rs.filter (fun cells => !cells.isEmpty)).length) := by
  constructor
  · intro fields rs1 rs2
    simp [loadRows, List.filter_append]
  · intro fields rs
    simp [loadRows]

/-- C4 (counterexample): when the first call loads zero rows, the memo
guard (`_ROWS` falsy) fails on every later call, so the file is re-parsed:
after a first `rag_stats` against an empty file, a second call sees 0 rows
if the file is unchanged but 1 row if the file now has content — mutating
the backing file does affect later results. -/
theorem stale_empty_state_reparses :
    (rag_stats (some csvEmpty) ((rag_stats (some csvEmpty) initState).1)).2.rows = 0 ∧
    (rag_stats (some csvA) ((rag_stats (some csvEmpty) initState).1)).2.rows = 1 := by
  constructor
  · decide
  · decide

/-- C4 (amended): after a *successful, non-empty* build, the build step is
a no-op for every state of the backing file, so neither search nor stats
depend on the source any more; but this holds only once the vectorizer
exists — an empty first load leaves the guard failing and later calls
re-parse. -/
theorem build_once_after_success
    (st : RagState) (hst : Reachable st) (hv : st.vectorizer ≠ none)
    (src src2 : Option CsvFile) (ev : EvidenceLog) (q : String) (k : ℤ) :
    buildIndex src st = st ∧
    rag_search src st ev q k = rag_search src2 st ev q k ∧
    rag_stats src st = rag_stats src2 st := by
  have hok := reachable_ok hst
  have h1 := buildIndex_noop hok hv
  refine ⟨h1 src, ?_, ?_⟩
  · unfold rag_search
    rw [h1 src, h1 src2]
  · unfold rag_stats
    rw [h1 src, h1 src2]

/-- Witness for the amended C4: a state built from a one-row corpus;
afterwards searching with the file deleted equals searching with it
emptied. -/
theorem build_once_after_success_witness :
    Reachable (buildIndex (some csvA) initState) ∧
    (buildIndex (some csvA) initState).vectorizer ≠ none ∧
    (buildIndex none (buildIndex (some csvA) initState) = buildIndex (some csvA) initState ∧
      rag_search none (buildIndex (some csvA) initState) [] "fever" 3
        = rag_search (some csvEmpty) (buildIndex (some csvA) initState) [] "fever" 3 ∧
      rag_stats none (buildIndex (some csvA) initState)
        = rag_stats (some csvEmpty) (buildIndex (some csvA) initState)) :=
  ⟨Reachable.build _ _ Reachable.start, by decide,
    build_once_after_success (buildIndex (some csvA) initState)
      (Reachable.build _ _ Reachable.start) (by decide) none (some csvEmpty) [] "fever" 3⟩

/-- The empty-index early return of `rag_search`. -/
theorem rag_search_empty (src : Option CsvFile) (st : RagState) (ev : EvidenceLog)
    (q : String) (k : ℤ) (hr : (buildIndex src st).rows = []) :
    rag_search src st ev q k = (buildIndex src st, ev, []) := by
  unfold rag_search
  rw [if_pos (by simp [List.isEmpty_iff, hr])]

/-- C8 (counterexample): a corpus that loads successfully and is
non-empty (the all-blank `,,` row) but whose only text `" |  | "`
contains no token.  `fit_transform` raises its empty-vocabulary
`ValueError`, so the first `rag_stats` call propagates the exception and
returns nothing — neither `rows == indexed` nor `indexed == 0` is
returned. -/
theorem token_free_corpus_stats_raises :
    loadRows (some csvBlankRow) ≠ [] ∧
    rag_statsE (some csvBlankRow) initState = Except.error emptyVocabMsg := by
  exact ⟨by decide, rfl⟩

/-- C8 (amended): whenever `rag_stats` returns, its report is consistent:
`rows` is the loaded row count, `indexed` equals `rows` when the corpus
is non-empty, `indexed` is 0 when the corpus is empty (index never
built), and an existing matrix always has exactly one row per loaded
row.  But when the freshly loaded corpus is non-empty and none of its
texts contains a token, the call raises the vectorizer's
empty-vocabulary `ValueError` instead of returning. -/
theorem rag_statsE_consistent (src : Option CsvFile) (st : RagState) (hst : Reachable st) :
    (∀ st' s, rag_statsE src st = Except.ok (st', s) →
      s.rows = st'.rows.length ∧
      (st'.rows ≠ [] → s.indexed = s.rows) ∧
      (st'.rows = [] → s.indexed = 0) ∧
      (∀ M, st'.matrix = some M → M.length = st'.rows.length)) ∧
    (∀ e, rag_statsE src st = Except.error e →
      e = emptyVocabMsg ∧ loadRows src ≠ [] ∧
      vocabOf ((loadRows src).map rowText) = []) := by
  have hok : StateOK st := reachable_ok hst
  constructor
  · intro st' s h
    unfold rag_statsE at h
    split at h
    · cases h
    · rename_i st2 heq
      simp only [Except.ok.injEq, Prod.mk.injEq] at h
      obtain ⟨rfl, rfl⟩ := h
      have hokb : StateOK st2 := buildIndexE_ok heq ▸ stateOK_build src st hok
      refine ⟨rfl, ?_, ?_, ?_⟩
      · intro hne
        obtain ⟨hv, hm⟩ := built_of_rows_ne hokb hne
        simp [hm]
      · intro hr
        rcases hokb with ⟨_, hm, _⟩ | ⟨texts, _, _, _, hrne⟩
        · simp [hm]
        · exact absurd hr hrne
      · intro M hM
        rcases hokb with ⟨_, hm, _⟩ | ⟨texts, _, hm, ht, _⟩
        · rw [hm] at hM
          cases hM
        · rw [hm] at hM
          cases hM
          simp [ht]
  · intro e h
    unfold rag_statsE at h
    split at h
    · rename_i e2 heq
      cases h
      unfold buildIndexE at heq
      split at heq
      · cases heq
      · dsimp only at heq
        split at heq
        · cases heq
        · rename_i hemp
          split at heq
          · rename_i e3 hft
            cases heq
            unfold fitTransform at hft
            split at hft
            · rename_i hvoc
              cases hft
              refine ⟨rfl, ?_, ?_⟩
              · simpa [List.isEmpty_iff] using hemp
              · simpa [List.isEmpty_iff] using hvoc
            · cases hft
          · cases heq
    · cases h

/-- Witness for the amended C8 on a one-row corpus from the initial
state. -/
theorem rag_statsE_consistent_witness :
    Reachable initState ∧
    ((∀ st' s, rag_statsE (some csvA) initState = Except.ok (st', s) →
        s.rows = st'.rows.length ∧
        (st'.rows ≠ [] → s.indexed = s.rows) ∧
        (st'.rows = [] → s.indexed = 0) ∧
        (∀ M, st'.matrix = some M → M.length = st'.rows.length)) ∧
      (∀ e, rag_statsE (some csvA) initState = Except.error e →
        e = emptyVocabMsg ∧ loadRows (some csvA) ≠ [] ∧
        vocabOf ((loadRows (some csvA)).map rowText) = [])) :=
  ⟨Reachable.start, rag_statsE_consistent (some csvA) initState Reachable.start⟩

/-- C9 (counterexample): on an unavailable/empty corpus `rag_search`
returns through the early guard, before `EVIDENCE.add` — no breadcrumb is
emitted (the log stays empty), contradicting "one breadcrumb per call
including the empty corpus". -/
theorem empty_corpus_no_breadcrumb :
    (rag_search none initState [] "anything" 3).2.1 = ([] : EvidenceLog) := by
  decide

/-- C9 (amended): `rag_search` emits exactly one breadcrumb summarizing the
result count when the built corpus is non-empty, and none when the corpus
is empty (the early return precedes the evidence call). -/
theorem rag_search_breadcrumb (src : Option CsvFile) (st : RagState) (ev : EvidenceLog)
    (q : String) (k : ℤ) (hst : Reachable st) :
    ((buildIndex src st).rows = [] → (rag_search src st ev q k).2.1 = ev) ∧
    ((buildIndex src st).rows ≠ [] →
      (rag_search src st ev q k).2.1
        = ev.add "dataset"
            (toString ((rag_search src st ev q k).2.2).length ++ " similar cases")) := by
  have hok : StateOK (buildIndex src st) := reachable_ok (Reachable.build src st hst)
  constructor
  · intro hr
    rw [rag_search_empty src st ev q k hr]
  · intro hne
    rw [rag_search_built src st ev q k hok hne]

/-- Witness for the amended C9: one breadcrumb on a one-row corpus. -/
theorem rag_search_breadcrumb_witness :
    Reachable initState ∧
    (((buildIndex (some csvA) initState).rows = [] →
        (rag_search (some csvA) initState [] "fever" 3).2.1 = []) ∧
      ((buildIndex (some csvA) initState).rows ≠ [] →
        (rag_search (some csvA) initState [] "fever" 3).2.1
          = EvidenceLog.add []
              "dataset"
              (toString ((rag_search (some csvA) initState [] "fever" 3).2.2).length
                ++ " similar cases"))) :=
  ⟨Reachable.start, rag_search_breadcrumb (some csvA) initState [] "fever" 3 Reachable.start⟩

/-- C7: every returned score lies in `[0, 1]` and is exactly the cosine
similarity of the query's tf-idf vector with that row's tf-idf vector,
rounded to 3 decimals. -/
theorem rag_search_scores (src : Option CsvFile) (st : RagState) (ev : EvidenceLog)
    (q : String) (k : ℤ) (hst : Reachable st) :
    ∀ res ∈ (rag_search src st ev q k).2.2,
      0 ≤ res.score ∧ res.score ≤ 1 ∧
      ∃ i, i < (buildIndex src st).rows.length ∧
        res.score = round3 (cosSim (vocabOf (corpusTexts (buildIndex src st)))
          (tfidfVec (corpusTexts (buildIndex src st)) q)
          (tfidfVec (corpusTexts (buildIndex src st))
            ((corpusTexts (buildIndex src st)).getD i ""))) := by
  intro res hres
  by_cases hr : (buildIndex src st).rows = []
  · rw [rag_search_empty src st ev q k hr] at hres
    simp at hres
  · have hok : StateOK (buildIndex src st) := reachable_ok (Reachable.build src st hst)
    rw [rag_search_built src st ev q k hok hr] at hres
    obtain ⟨i, hmem, rfl⟩ := List.mem_map.mp hres
    have hisims : i < (searchSims (buildIndex src st) q).length := ragTopIdx_mem hmem
    have hirows : i < (buildIndex src st).rows.length := by
      rwa [searchSims_length] at hisims
    have hitexts : i < (corpusTexts (buildIndex src st)).length := by
      simpa [corpusTexts] using hirows
    have hsim : (searchSims (buildIndex src st) q).getD i 0
        = cosSim (vocabOf (corpusTexts (buildIndex src st)))
            (tfidfVec (corpusTexts (buildIndex src st)) q)
            (tfidfVec (corpusTexts (buildIndex src st))
              ((corpusTexts (buildIndex src st)).getD i "")) := by
      unfold searchSims simsOf corpusMatrix
      rw [getD_map_of_lt _ _ (tfidfVec (corpusTexts (buildIndex src st)) "") _
        (by simpa [corpusTexts] using hitexts),
        getD_map_of_lt _ _ "" _ hitexts]
    have hbounds : 0 ≤ (searchSims (buildIndex src st) q).getD i 0 ∧
        (searchSims (buildIndex src st) q).getD i 0 ≤ 1 := by
      rw [hsim]
      exact ⟨cosSim_nonneg (tfidfVec_nonneg _ _) (tfidfVec_nonneg _ _),
        cosSim_le_one (List.nodup_dedup _) (tfidfVec_nonneg _ _) (tfidfVec_nonneg _ _)⟩
    refine ⟨round3_nonneg hbounds.1, round3_le_one hbounds.2, i, hirows, ?_⟩
    show round3 ((searchSims (buildIndex src st) q).getD i 0) = _
    rw [hsim]

/-- Witness for C7 on a one-row corpus. -/
theorem rag_search_scores_witness :
    Reachable initState ∧
    (∀ res ∈ (rag_search (some csvA) initState [] "fever" 3).2.2,
      0 ≤ res.score ∧ res.score ≤ 1 ∧
      ∃ i, i < (buildIndex (some csvA) initState).rows.length ∧
        res.score = round3 (cosSim (vocabOf (corpusTexts (buildIndex (some csvA) initState)))
          (tfidfVec (corpusTexts (buildIndex (some csvA) initState)) "fever")
          (tfidfVec (corpusTexts (buildIndex (some csvA) initState))
            ((corpusTexts (buildIndex (some csvA) initState)).getD i "")))) :=
  ⟨Reachable.start, rag_search_scores (some csvA) initState [] "fever" 3 Reachable.start⟩

/-- C10: the results of a search on a built non-empty corpus are the images
of a duplicate-free list of in-range row indices — no indexed row is
referenced twice in one result list. -/
theorem rag_search_results_distinct (src : Option CsvFile) (st : RagState)
    (ev : EvidenceLog) (q : String) (k : ℤ)
    (hst : Reachable st) (hne : (buildIndex src st).rows ≠ []) :
    (rag_search src st ev q k).2.2
      = (ragTopIdx (searchSims (buildIndex src st) q) k).map
          (resultOf (buildIndex src st).rows (searchSims (buildIndex src st) q)) ∧
    (ragTopIdx (searchSims (buildIndex src st) q) k).Nodup ∧
    ∀ i ∈ ragTopIdx (searchSims (buildIndex src st) q) k,
      i < (buildIndex src st).rows.length := by
  have hok : StateOK (buildIndex src st) := reachable_ok (Reachable.build src st hst)
  refine ⟨congrArg (fun p => p.2.2) (rag_search_built src st ev q k hok hne),
    ragTopIdx_nodup _ _, ?_⟩
  intro i hi
  have := ragTopIdx_mem hi
  rwa [searchSims_length] at this

/-- Witness for C10 on a one-row corpus. -/
theorem rag_search_results_distinct_witness :
    Reachable initState ∧ (buildIndex (some csvA) initState).rows ≠ [] ∧
    ((rag_search (some csvA) initState [] "fever" 2).2.2
        = (ragTopIdx (searchSims (buildIndex (some csvA) initState) "fever") 2).map
            (resultOf (buildIndex (some csvA) initState).rows
              (searchSims (buildIndex (some csvA) initState) "fever")) ∧
      (ragTopIdx (searchSims (buildIndex (some csvA) initState) "fever") 2).Nodup ∧
      ∀ i ∈ ragTopIdx (searchSims (buildIndex (some csvA) initState) "fever") 2,
        i < (buildIndex (some csvA) initState).rows.length) :=
  ⟨Reachable.start, by decide,
    rag_search_results_distinct (some csvA) initState [] "fever" 2 Reachable.start (by decide)⟩

/-- C6 (counterexample): a url cell with surrounding whitespace is stored
verbatim — the source applies `.strip()` to the three text fields but not
to the url. -/
theorem url_field_not_stripped :
    loadRows (some csvUrl)
      = [{ condition := "c", symptoms := "s", advice := "a", url := some " u " }] ∧
    " u " ≠ pyStrip " u " := by
  decide

/-- C6 (amended): every loaded row has its three text fields equal to the
strip of some raw cell value, and its url is never the empty string
(missing or empty cells become `none`) — but the url itself is kept
unstripped. -/
theorem loaded_row_shape (src : Option CsvFile) :
    ∀ r ∈ loadRows src,
      (∃ c, r.condition = pyStrip c) ∧ (∃ s, r.symptoms = pyStrip s) ∧
      (∃ a, r.advice = pyStrip a) ∧ r.url ≠ some "" := by
  intro r hr
  match src with
  | none => simp [loadRows] at hr
  | some f =>
    unfold loadRows at hr
    obtain ⟨cells, _, rfl⟩ := List.mem_map.mp hr
    refine ⟨⟨_, rfl⟩, ⟨_, rfl⟩, ⟨_, rfl⟩, ?_⟩
    show (parseRecord f.fieldnames cells).url ≠ some ""
    unfold parseRecord
    rcases hcol : resolveColOpt f.fieldnames ["url", "link", "source"] with _ | uc
    · simp
    · rcases hv : pyDictGet f.fieldnames cells uc with _ | s
      · simp [hv]
      · by_cases hs : s = "" <;> simp [hv, hs]

/-- Witness for the amended C6 at the row of `csvA`. -/
theorem loaded_row_shape_witness :
    ({ condition := "flu", symptoms := "fever cough", advice := "rest fluids",
        url := none } : KBRow) ∈ loadRows (some csvA) ∧
    ((∃ c, ("flu" : String) = pyStrip c) ∧ (∃ s, ("fever cough" : String) = pyStrip s) ∧
      (∃ a, ("rest fluids" : String) = pyStrip a) ∧ (none : Option String) ≠ some "") :=
  ⟨by decide, loaded_row_shape (some csvA)
    { condition := "flu", symptoms := "fever cough", advice := "rest fluids", url := none }
    (by decide)⟩

/-- The similarity the query attains against row `i` of a built state. -/
theorem searchSims_getD (st : RagState) (q : String) {i : ℕ} (hi : i < st.rows.length) :
    (searchSims st q).getD i 0
      = cosSim (vocabOf (corpusTexts st)) (tfidfVec (corpusTexts st) q)
          (tfidfVec (corpusTexts st) ((corpusTexts st).getD i "")) := by
  have hit : i < (corpusTexts st).length := by simpa [corpusTexts] using hi
  unfold searchSims simsOf corpusMatrix
  rw [getD_map_of_lt _ _ (tfidfVec (corpusTexts st) "") _ (by simpa using hit),
    getD_map_of_lt _ _ "" _ hit]

/-- C5 (amended): querying with the concatenated text of row `j` gives
row `j` a maximal similarity among all rows, and the first returned result
carries exactly that maximal score (rounded).  When several rows share the
same concatenated text, the top result need not be row `j` itself. -/
theorem self_query_scores_max (src : Option CsvFile) (st : RagState)
    (ev : EvidenceLog) (k : ℤ) (j : ℕ) (hst : Reachable st) (hk : 1 ≤ k)
    (hj : j < (buildIndex src st).rows.length) :
    (∀ i, i < (buildIndex src st).rows.length →
      (searchSims (buildIndex src st)
          (rowText ((buildIndex src st).rows.getD j default))).getD i 0
        ≤ (searchSims (buildIndex src st)
            (rowText ((buildIndex src st).rows.getD j default))).getD j 0) ∧
    ((rag_search src st ev (rowText ((buildIndex src st).rows.getD j default)) k).2.2).head?.map
        SearchResult.score
      = some (round3 ((searchSims (buildIndex src st)
          (rowText ((buildIndex src st).rows.getD j default))).getD j 0)) := by
  have hok : StateOK (buildIndex src st) := reachable_ok (Reachable.build src st hst)
  set bst := buildIndex src st with hbst
  set q := rowText (bst.rows.getD j default) with hq
  set sims := searchSims bst q with hsims
  have hne : bst.rows ≠ [] := by
    intro h
    rw [h] at hj
    simp at hj
  have htj : (corpusTexts bst).getD j "" = q := by
    unfold corpusTexts
    rw [getD_map_of_lt _ _ default _ hj]
  have hmax : ∀ i, i < bst.rows.length → sims.getD i 0 ≤ sims.getD j 0 := by
    intro i hi
    rw [hsims, searchSims_getD bst q hi, searchSims_getD bst q hj, htj]
    by_cases hz : listDot (vocabOf (corpusTexts bst)) (tfidfVec (corpusTexts bst) q)
        (tfidfVec (corpusTexts bst) q) = 0
    · have h1 : cosSim (vocabOf (corpusTexts bst)) (tfidfVec (corpusTexts bst) q)
          (tfidfVec (corpusTexts bst) ((corpusTexts bst).getD i "")) = 0 := by
        unfold cosSim
        rw [if_pos (Or.inl hz)]
      have h2 : cosSim (vocabOf (corpusTexts bst)) (tfidfVec (corpusTexts bst) q)
          (tfidfVec (corpusTexts bst) q) = 0 := by
        unfold cosSim
        rw [if_pos (Or.inl hz)]
      rw [h1, h2]
    · rw [cosSim_self hz]
      exact cosSim_le_one (List.nodup_dedup _) (tfidfVec_nonneg _ _) (tfidfVec_nonneg _ _)
  refine ⟨hmax, ?_⟩
  have hsimsne : sims ≠ [] := by
    intro h
    have := congrArg List.length h
    rw [hsims, searchSims_length] at this
    simp at this
    exact hne this
  obtain ⟨i0, hhead, hi0, hmaxi0⟩ := ragTopIdx_head hk hsimsne
  have hi0rows : i0 < bst.rows.length := by
    rw [hsims, searchSims_length] at hi0
    exact hi0
  have hjsims : j < sims.length := by
    rw [hsims, searchSims_length]
    exact hj
  have heq : sims.getD i0 0 = sims.getD j 0 :=
    le_antisymm (hmax i0 hi0rows) (hmaxi0 j hjsims)
  rw [rag_search_built src st ev q k hok hne]
  show (((ragTopIdx sims k).map (resultOf bst.rows sims)).head?).map SearchResult.score
      = some (round3 (sims.getD j 0))
  rw [List.head?_map, hhead]
  show some (round3 (sims.getD i0 0)) = some (round3 (sims.getD j 0))
  rw [heq]

/-- Witness for the amended C5: the one-row corpus, its own text as
query. -/
theorem self_query_scores_max_witness :
    Reachable initState ∧ (1 : ℤ) ≤ 1 ∧ 0 < (buildIndex (some csvA) initState).rows.length ∧
    ((∀ i, i < (buildIndex (some csvA) initState).rows.length →
        (searchSims (buildIndex (some csvA) initState)
            (rowText ((buildIndex (some csvA) initState).rows.getD 0 default))).getD i 0
          ≤ (searchSims (buildIndex (some csvA) initState)
              (rowText ((buildIndex (some csvA) initState).rows.getD 0 default))).getD 0 0) ∧
      ((rag_search (some csvA) initState []
          (rowText ((buildIndex (some csvA) initState).rows.getD 0 default)) 1).2.2).head?.map
          SearchResult.score
        = some (round3 ((searchSims (buildIndex (some csvA) initState)
            (rowText ((buildIndex (some csvA) initState).rows.getD 0 default))).getD 0 0))) :=
  ⟨Reachable.start, le_refl 1, by decide,
    self_query_scores_max (some csvA) initState [] 1 0 Reachable.start (le_refl 1) (by decide)⟩

/-- C5 (counterexample): two rows with identical concatenated text
`"ab |  | "` (a real token, so the vectorizer fits and the build
succeeds — certified by the `rag_searchE` conjunct), differing only in
url.  Both rows tie at the maximal similarity 1, and querying with row
0's own text returns row 1 first, not row 0: the returned url is `none`
while row 0 has `some "a"`. -/
theorem duplicate_text_not_first :
    rowText ((loadRows (some csvDup)).getD 0 default) = "ab |  | " ∧
    (loadRows (some csvDup)).getD 0 default
      = { condition := "ab", symptoms := "", advice := "", url := some "a" } ∧
    (rag_search (some csvDup) initState [] "ab |  | " 1).2.2
      = [{ condition := "ab", symptoms := "", advice := "", url := none, score := 1 }] ∧
    rag_searchE (some csvDup) initState [] "ab |  | " 1
      = Except.ok (rag_search (some csvDup) initState [] "ab |  | " 1) := by
  refine ⟨by decide, by decide, ?_, rag_searchE_agrees _ _ _ _ _ (by rfl)⟩
  have hok : StateOK (buildIndex (some csvDup) initState) :=
    reachable_ok (Reachable.build _ _ Reachable.start)
  have hne : (buildIndex (some csvDup) initState).rows ≠ [] := by decide
  rw [rag_search_built _ _ _ _ _ hok hne]
  have hrows : (buildIndex (some csvDup) initState).rows
      = [{ condition := "ab", symptoms := "", advice := "", url := some "a" },
         { condition := "ab", symptoms := "", advice := "", url := none }] := by
    decide
  have htexts : corpusTexts (buildIndex (some csvDup) initState) = ["ab |  | ", "ab |  | "] := by
    rw [corpusTexts, hrows]
    decide
  have hidf : sklearnIdf 2 2 = 1 := by
    unfold sklearnIdf
    norm_num [Real.log_one]
  have hvec : tfidfVec ["ab |  | ", "ab |  | "] "ab |  | " "ab" = 1 := by
    unfold tfidfVec
    rw [show (termsOf "ab |  | ").count "ab" = 1 from by decide,
      show dfOf ["ab |  | ", "ab |  | "] "ab" = 2 from by decide,
      show (["ab |  | ", "ab |  | "] : List String).length = 2 from rfl, hidf]
    norm_num
  have hcos : cosSim (vocabOf ["ab |  | ", "ab |  | "])
      (tfidfVec ["ab |  | ", "ab |  | "] "ab |  | ")
      (tfidfVec ["ab |  | ", "ab |  | "] "ab |  | ") = 1 := by
    have hdot : listDot (vocabOf ["ab |  | ", "ab |  | "])
        (tfidfVec ["ab |  | ", "ab |  | "] "ab |  | ")
        (tfidfVec ["ab |  | ", "ab |  | "] "ab |  | ") = 1 := by
      rw [show vocabOf ["ab |  | ", "ab |  | "] = ["ab"] from by decide]
      simp [listDot, hvec]
    exact cosSim_self (by rw [hdot]; exact one_ne_zero)
  have hsims : searchSims (buildIndex (some csvDup) initState) "ab |  | " = [1, 1] := by
    unfold searchSims simsOf corpusMatrix
    rw [htexts]
    simp only [List.map_cons, List.map_nil, hcos]
  rw [hsims, hrows]
  have hidx : ragTopIdx [(1 : ℝ), 1] 1 = [1] := by
    unfold ragTopIdx argsortAsc pySliceFrom
    rw [show List.range (List.length [(1 : ℝ), 1]) = [0, 1] from rfl]
    norm_num [List.insertionSort, List.orderedInsert]
  rw [hidx]
  simp [resultOf, round3_one]

end

end RagSpec
